import Mathlib

/-
  Verification of the HR-airdrop MCP server (workflow state machine and
  batched-distribution engine).

  Shallow embedding conventions:
  * JavaScript numbers are modelled as exact rationals (ℚ); none of the
    verified properties depends on binary floating-point rounding.
  * Handler methods of `HRAirdropServer` (src/index.ts, shipped in the
    repository as `src/.env.template`) become pure functions
    `ServerState → args → Except McpError ServerState`.  A thrown
    `McpError` becomes `Except.error`; in the source every mutation of
    `this.state` happens only after the last possible `throw` of the
    handler, so an error leaves the state unchanged, which the `Except`
    embedding encodes by not returning a state on error.
  * External collaborators (Solana RPC, Crossmint custody API, Resend,
    csv-parse, the file system) are modelled as explicit oracle
    parameters describing their observable outcome: e.g. the per-batch
    transaction submission of the distribution engine is an oracle
    `Nat → Except String String` giving the signature or the error of
    the i-th batch, and the custody provider is `String → String`
    assigning a wallet address to each email (every branch of
    `createCustodialWallets` returns a `{ email, walletAddress }` pair
    for each input email, in input order).
  * Success replies (the human-readable text summaries) carry no state
    and are not modelled; error messages are modelled verbatim because
    the specification's claims refer to them.
-/

namespace HRAirdrop

/-- Connected funding wallet, from the `connectedWallet` field of `ServerState`. -/
structure ConnectedWallet where
  publicKey : String
  solBalance : ℚ
  deriving Repr, DecidableEq

/-- Created token, from the `createdToken` field of `ServerState`. -/
structure CreatedToken where
  name : String
  symbol : String
  mintAddress : String
  supply : ℚ
  decimals : ℚ
  deriving Repr, DecidableEq

/-- One employee record of the registry (the `employees` array elements). -/
structure Employee where
  name : Option String := none
  email : String
  role : Option String := none
  walletAddress : String
  tokenAmount : Option ℚ := none
  deriving Repr, DecidableEq

/-- Distribution bookkeeping, from the `airdropStatus` field. -/
structure AirdropStatus where
  started : Bool
  completed : Bool
  successful : Nat
  failed : Nat
  deriving Repr, DecidableEq

/-- Email bookkeeping, from the `emailsStatus` field. -/
structure EmailsStatus where
  sent : Bool
  successful : Nat
  failed : Nat
  deriving Repr, DecidableEq

/-- The process-wide aggregate state (`ServerState` interface of the source). -/
structure ServerState where
  connectedWallet : Option ConnectedWallet
  createdToken : Option CreatedToken
  employees : List Employee
  airdropStatus : AirdropStatus
  emailsStatus : EmailsStatus
  deriving Repr, DecidableEq

/-- The state installed by the `HRAirdropServer` constructor. -/
def initialState : ServerState where
  connectedWallet := none
  createdToken := none
  employees := []
  airdropStatus := ⟨false, false, 0, 0⟩
  emailsStatus := ⟨false, 0, 0⟩

/-- Error codes of `McpError` used by the handlers.  The specification's
taxonomy maps `invalidRequest` to `PreconditionError`, `invalidParams` to
`ValidationError` and `internalError` to `ExecutionError`. -/
inductive ErrCode where
  | invalidRequest
  | invalidParams
  | internalError
  deriving Repr, DecidableEq

/-- A structured error crossing the tool boundary (`McpError` of the source). -/
structure McpError where
  code : ErrCode
  message : String
  deriving Repr, DecidableEq

/-- Result of one handler call: a thrown `McpError` or the successor state. -/
abbrev HandlerResult := Except McpError ServerState

instance {ε α : Type} [DecidableEq ε] [DecidableEq α] : DecidableEq (Except ε α) :=
  fun x y =>
    match x, y with
    | .ok a, .ok b =>
      if h : a = b then isTrue (congrArg Except.ok h)
      else isFalse fun he => h (Except.ok.inj he)
    | .error a, .error b =>
      if h : a = b then isTrue (congrArg Except.error h)
      else isFalse fun he => h (Except.error.inj he)
    | .ok _, .error _ => isFalse fun he => Except.noConfusion he
    | .error _, .ok _ => isFalse fun he => Except.noConfusion he

/-- ASCII lowercasing, character by character (JavaScript `toLowerCase` on
the ASCII strings compared here), kept kernel-reducible. -/
def jsToLower (s : String) : String :=
  ⟨s.data.map Char.toLower⟩

/-- Character-list splitter behind `jsSplit`; always returns at least one
(possibly empty) piece, like JavaScript `String.prototype.split`. -/
def splitCharList (c : Char) : List Char → List (List Char)
  | [] => [[]]
  | x :: xs =>
    let r := splitCharList c xs
    if x = c then [] :: r
    else
      match r with
      | [] => [[x]]
      | y :: ys => (x :: y) :: ys

/-- JavaScript `s.split(c)` for a single-character separator (the source only
splits on `'\n'` and `','`), kept kernel-reducible. -/
def jsSplit (c : Char) (s : String) : List String :=
  (splitCharList c s.data).map fun l => ⟨l⟩

/-- JavaScript `s.trim()`: strip leading and trailing whitespace, kept
kernel-reducible. -/
def jsTrim (s : String) : String :=
  ⟨((s.data.dropWhile Char.isWhitespace).reverse.dropWhile Char.isWhitespace).reverse⟩

/-! ## Fee Calculator (`calculateAirdropFees`, src/utils/crossmintTransactions.ts) -/

/-- Fee report returned by `calculateAirdropFees`. -/
structure AirdropFees where
  accountCreationFee : ℚ
  transactionFee : ℚ
  totalFees : ℚ
  deriving Repr, DecidableEq

/-- Embedding of `calculateAirdropFees`: `0.00001 * n` per account,
`0.000005 * n` per signature, total is the sum.  Pure and total. -/
def calculateAirdropFees (numberOfRecipients : ℚ) : AirdropFees :=
  let accountCreationFee : ℚ := (1 / 100000) * numberOfRecipients
  let transactionFee : ℚ := (1 / 200000) * numberOfRecipients
  { accountCreationFee := accountCreationFee
    transactionFee := transactionFee
    totalFees := accountCreationFee + transactionFee }

/-! ## Batched Distribution Engine (`sendCompressedAirdrop`, src/utils/compressedAirdrop.ts) -/

/-- One airdrop recipient as passed to `sendCompressedAirdrop`. -/
structure Recipient where
  address : String
  email : String
  amount : Option ℚ := none
  deriving Repr, DecidableEq

/-- Batch size used by the engine (`const batchSize = 5`). -/
def batchSize : Nat := 5

/-- Chunking loop with an explicit fuel argument for structural recursion;
each iteration consumes at least one list element, so `l.length` fuel always
suffices and the `0, _ :: _` case is unreachable from `chunkBatches`. -/
def chunkBatchesAux {α : Type} : Nat → List α → List (List α)
  | _, [] => []
  | 0, _ :: _ => []
  | fuel + 1, x :: xs =>
    ((x :: xs).take batchSize) :: chunkBatchesAux fuel ((x :: xs).drop batchSize)

/-- Embedding of the chunking loop
`for (let i = 0; i < recipients.length; i += batchSize) batches.push(recipients.slice(i, i + batchSize))`. -/
def chunkBatches {α : Type} (l : List α) : List (List α) :=
  chunkBatchesAux l.length l

/-- Outcome of the sequential per-batch submission loop: collected
transaction signatures, number of `sendAndConfirmTransaction` calls made,
and the first error if one occurred. -/
structure BatchRun where
  txIds : List String
  attempted : Nat
  failure : Option String
  deriving Repr, DecidableEq

/-- Embedding of the `for (let i = 0; i < batches.length; i++)` submission
loop: batches are submitted sequentially; the i-th outcome is given by the
oracle `submit`; a failing submission rethrows immediately, so nothing after
it is attempted. -/
def runBatchesFrom {β : Type} (submit : Nat → Except String String) :
    Nat → List β → BatchRun
  | _, [] => ⟨[], 0, none⟩
  | i, _ :: rest =>
    match submit i with
    | .error e => ⟨[], 1, some e⟩
    | .ok tx =>
      let r := runBatchesFrom submit (i + 1) rest
      ⟨tx :: r.txIds, r.attempted + 1, r.failure⟩

/-- Embedding of `sendCompressedAirdrop`.  `senderOk` is the oracle outcome
of the one-time `getAccount(connection, senderTokenAccount)` existence check;
`submit i` is the oracle outcome of submitting the i-th batch transaction.
Per-recipient account-creation instructions only change the transaction
contents, not the control flow, and are absorbed into the `submit` oracle.
Returns the thrown error or the `txIds`, together with the number of batch
submissions attempted. -/
def sendCompressedAirdrop (senderOk : Bool) (submit : Nat → Except String String)
    (recipients : List Recipient) : Except String (List String) × Nat :=
  if senderOk then
    let batches := chunkBatches recipients
    let r := runBatchesFrom submit 0 batches
    match r.failure with
    | none => (.ok r.txIds, r.attempted)
    | some e => (.error ("Compressed airdrop failed: " ++ e), r.attempted)
  else
    -- the inner throw (the sender token account does not exist) is
    -- rewrapped by the outer catch; the exact message text is not modelled
    (.error "Compressed airdrop failed: sender token account does not exist", 0)

/-! ## Employee Registry: wallet generation (`handleGenerateWallets`) -/

/-- Embedding of one line of the `employees` text block:
`line.split(',')` with two or more fields gives `(name, email)`, a single
field is taken as a bare email. -/
def parseEmployeeLine (line : String) : Option String × String :=
  match jsSplit ',' line with
  | a :: b :: _ => (some (jsTrim a), jsTrim b)
  | [a] => (none, jsTrim a)
  | [] => (none, "")

/-- Embedding of the employee text-block parser of `handleGenerateWallets`:
split on newlines, trim, drop blank lines, parse each line. -/
def parseEmployees (text : String) : List (Option String × String) :=
  (((jsSplit '\n' text).map jsTrim).filter fun l => l.length > 0).map
    parseEmployeeLine

/-- Embedding of `handleGenerateWallets`.  `apiKey = none` makes the handler
reply with a prompt asking for a Crossmint API key, leaving the state
untouched.  `custodyOutcome` is the oracle for `createCustodialWallets`: on
success it assigns a wallet address to each email, and the registry is
replaced by one `{ email, walletAddress }` record per parsed email, in input
order (the parsed names are logged but not stored by the source). -/
def handleGenerateWallets (s : ServerState) (employeesText : String)
    (apiKey : Option String) (custodyOutcome : Except String (String → String)) :
    HandlerResult :=
  if s.connectedWallet.isNone then
    .error ⟨.invalidRequest, "No wallet connected. Please connect a wallet first."⟩
  else
    match apiKey with
    | none => .ok s
    | some _ =>
      let employeeList := parseEmployees employeesText
      let emails := employeeList.map Prod.snd
      if emails.length = 0 then
        .error ⟨.invalidParams,
          "No valid employee emails found. Please provide at least one employee."⟩
      else
        match custodyOutcome with
        | .error e => .error ⟨.internalError, "Failed to create wallets: " ++ e⟩
        | .ok addr =>
          .ok { s with employees := emails.map fun em =>
                  { email := em, walletAddress := addr em } }

/-! ## Employee Registry: CSV import (`handleUploadCsv`) -/

/-- One parsed CSV record as produced by `csv-parse` with `columns: true`.
`none` models a missing column, `some ""` an empty cell; both are falsy in
the source's checks. -/
structure CsvRow where
  email : Option String := none
  name : Option String := none
  role : Option String := none
  deriving Repr, DecidableEq

/-- JavaScript string falsiness: `undefined` and `""` are falsy. -/
def strFalsy (x : Option String) : Bool :=
  x.getD "" = ""

/-- The `validRoles` array of `handleUploadCsv`.  Note the mixed casing: the
role check lowercases the CSV value before `includes`, so the uppercase
entries `VP` and `VIP` can never match. -/
def validRoles : List String :=
  ["operational", "developer", "manager", "VP", "VIP"]

/-- Embedding of `new Map(this.state.employees.map(e => [e.email, e]))`
followed by `.get(email)`: for duplicate keys the `Map` constructor keeps the
last entry. -/
def lookupEmployee (emps : List Employee) (email : String) : Option Employee :=
  emps.reverse.find? fun e => e.email == email

/-- Embedding of one iteration of the `records.map(...)` body of
`handleUploadCsv`: throw on missing email, on an email absent from the
registry, or on an invalid role, checked in that order; otherwise keep the
matching registry record with `name` and `role` overwritten from the row
(`record.role?.toLowerCase() || undefined`). -/
def processCsvRow (emps : List Employee) (r : CsvRow) : Except McpError Employee :=
  if strFalsy r.email then
    .error ⟨.invalidParams, "Every row must have an email."⟩
  else
    match lookupEmployee emps (r.email.getD "") with
    | none =>
      .error ⟨.invalidParams,
        "Email " ++ r.email.getD "" ++
          " does not match any generated wallet. Please generate wallets first."⟩
    | some existingEmployee =>
      if !strFalsy r.role && !validRoles.contains (jsToLower (r.role.getD "")) then
        .error ⟨.invalidParams,
          "Invalid role \"" ++ r.role.getD "" ++ "\" for " ++ r.email.getD "" ++
            ". Valid roles are: " ++ String.intercalate ", " validRoles ++ "."⟩
      else
        .ok { existingEmployee with
                name := if strFalsy r.name then none else r.name
                role := if strFalsy r.role then none
                        else some (jsToLower (r.role.getD "")) }

/-- Embedding of the whole `records.map(...)` call: rows are processed in
order and the first offending row throws, aborting the map. -/
def processCsvRows (emps : List Employee) : List CsvRow → Except McpError (List Employee)
  | [] => .ok []
  | r :: rs =>
    match processCsvRow emps r with
    | .error e => .error e
    | .ok v =>
      match processCsvRows emps rs with
      | .error e => .error e
      | .ok rest => .ok (v :: rest)

/-- Embedding of `handleUploadCsv`.  File reading and CSV parsing are
external; `records` is the parsed row list.  On success the registry is
replaced by the mapped row list. -/
def handleUploadCsv (s : ServerState) (records : List CsvRow) : HandlerResult :=
  match records with
  | [] => .error ⟨.invalidParams, "CSV file is empty."⟩
  | first :: _ =>
    if first.email.isNone then
      .error ⟨.invalidParams, "CSV file must have an \"email\" column."⟩
    else
      match processCsvRows s.employees records with
      | .error e => .error e
      | .ok updatedEmployees => .ok { s with employees := updatedEmployees }

/-! ## Allocation Engine (`handleCalculateAmounts`) -/

/-- The optional `roleAmounts` input object.  Field names follow the source's
`RoleAmounts` interface, uppercase `VP`/`VIP` included. -/
structure RoleAmounts where
  operational : Option ℚ := none
  developer : Option ℚ := none
  manager : Option ℚ := none
  VP : Option ℚ := none
  VIP : Option ℚ := none
  deriving Repr, DecidableEq

/-- The `defaultRoleTokens` object literal, as a key-value list.  Its last
two keys are lowercase `vp`/`vip`. -/
def defaultRoleTokens : List (String × ℚ) :=
  [("operational", 100), ("developer", 200), ("manager", 300), ("vp", 400), ("vip", 500)]

/-- Key-value entries contributed by spreading `roleAmounts`; present fields
keep their interface names, so `VP`/`VIP` stay uppercase. -/
def roleAmountsEntries (ra : RoleAmounts) : List (String × ℚ) :=
  (ra.operational.map fun v => ("operational", v)).toList ++
    (ra.developer.map fun v => ("developer", v)).toList ++
    (ra.manager.map fun v => ("manager", v)).toList ++
    (ra.VP.map fun v => ("VP", v)).toList ++
    (ra.VIP.map fun v => ("VIP", v)).toList

/-- Property access on an object built by spreads: the last binding of a key
wins, a missing key yields `undefined`. -/
def objGet (l : List (String × ℚ)) (k : String) : Option ℚ :=
  (l.reverse.find? fun p => p.1 == k).map Prod.snd

/-- The merged object `{...defaultRoleTokens, ...(roleAmounts || {})}`. -/
def roleTokens (ra : RoleAmounts) : List (String × ℚ) :=
  defaultRoleTokens ++ roleAmountsEntries ra

/-- JavaScript `x || d` for numbers: `undefined` and `0` fall back to `d`. -/
def jsOrQ (x : Option ℚ) (d : ℚ) : ℚ :=
  match x with
  | none => d
  | some v => if v = 0 then d else v

/-- The role-based branch of the token-amount computation: lowercase the
employee's role and look it up in the merged `roleTokens` object, with the
source's literal fallbacks. -/
def roleBasedAmount (ra : RoleAmounts) (e : Employee) : ℚ :=
  match e.role with
  | some r =>
    let role := jsToLower r
    let rt := roleTokens ra
    if role = "operational" then jsOrQ (objGet rt "operational") 100
    else if role = "developer" then jsOrQ (objGet rt "developer") 200
    else if role = "manager" then jsOrQ (objGet rt "manager") 300
    else if role = "vp" then jsOrQ (objGet rt "vp") 400
    else if role = "vip" then jsOrQ (objGet rt "vip") 500
    else 100
  | none => 100

/-- Per-employee token amount: `uniformAmount` wins when truthy, otherwise
the role-based computation (itself defaulting to 100 with no role). -/
def calcTokenAmount (uniformAmount : Option ℚ) (ra : RoleAmounts) (e : Employee) : ℚ :=
  match uniformAmount with
  | some u => if u = 0 then roleBasedAmount ra e else u
  | none => roleBasedAmount ra e

/-- Zod `z.number().positive().optional()`: absent or strictly positive. -/
def optPos (x : Option ℚ) : Bool :=
  x.all fun v => decide (0 < v)

/-- Zod validation of the optional `roleAmounts` object. -/
def roleAmountsValid (ra : RoleAmounts) : Bool :=
  optPos ra.operational && optPos ra.developer && optPos ra.manager &&
    optPos ra.VP && optPos ra.VIP

/-- Embedding of `handleCalculateAmounts`: requires a non-empty registry,
validates the inputs, then replaces the registry with the same records with
`tokenAmount` populated. -/
def handleCalculateAmounts (s : ServerState) (uniformAmount : Option ℚ)
    (roleAmounts : Option RoleAmounts) : HandlerResult :=
  if s.employees.length = 0 then
    .error ⟨.invalidRequest, "No employees added. Please generate wallets first."⟩
  else if !(optPos uniformAmount && roleAmountsValid (roleAmounts.getD {})) then
    -- `schema.parse` throws a ZodError on non-positive inputs; the
    -- dispatcher converts it to an error reply, the state is unchanged
    .error ⟨.invalidParams, "zod validation failed"⟩
  else
    let ra := roleAmounts.getD {}
    .ok { s with employees := s.employees.map fun e =>
            { e with tokenAmount := some (calcTokenAmount uniformAmount ra e) } }

/-! ## Remaining handlers of the Workflow State Machine -/

/-- Embedding of `handleConnectWallet`.  `keyValid` is the oracle outcome of
`Keypair.fromSecretKey`; `publicKey` and `balance` are the oracle outcomes of
key derivation and the RPC balance query.  The handler's own catch rewraps
every failure as an internal error. -/
def handleConnectWallet (s : ServerState) (keyValid : Bool) (publicKey : String)
    (balance : ℚ) : HandlerResult :=
  if !keyValid then
    .error ⟨.internalError,
      "Failed to connect wallet: Invalid private key format. Please provide a base64 encoded private key."⟩
  else
    .ok { s with connectedWallet := some ⟨publicKey, balance⟩ }

/-- Embedding of `handleConnectCrossmintWallet`.  With no API key the handler
replies with a prompt and changes nothing; otherwise it stores the wallet
address obtained from the custody provider (or the simulated fallback) with
the hard-coded balance `1.0`. -/
def handleConnectCrossmintWallet (s : ServerState) (apiKey : Option String)
    (publicKey : String) : HandlerResult :=
  match apiKey with
  | none => .ok s
  | some _ => .ok { s with connectedWallet := some ⟨publicKey, 1⟩ }

/-- Embedding of `handleCheckBalance`: read-only, requires a connected wallet. -/
def handleCheckBalance (s : ServerState) : HandlerResult :=
  if s.connectedWallet.isNone then
    .error ⟨.invalidRequest, "No wallet connected. Please connect a wallet first."⟩
  else
    .ok s

/-- Embedding of `handleCreateToken`.  `mintOutcome` is the oracle for the
external `createToken` call (`.ok none` models a result without a
`mintAddress`).  Note: the handler never checks whether `createdToken` is
already set, so a successful call overwrites any previously stored token. -/
def handleCreateToken (s : ServerState) (name symbol : String)
    (supply decimals : ℚ) (mintOutcome : Except String (Option String)) :
    HandlerResult :=
  if s.connectedWallet.isNone then
    .error ⟨.invalidRequest, "No wallet connected. Please connect a wallet first."⟩
  else if !(decide (0 < supply) && decide (0 ≤ decimals) && decide (decimals ≤ 9)) then
    -- `schema.parse` throws a ZodError outside the handler's try block
    .error ⟨.invalidParams, "zod validation failed"⟩
  else
    match mintOutcome with
    | .error e => .error ⟨.internalError, "Token creation failed: " ++ e⟩
    | .ok none =>
      .error ⟨.internalError,
        "Token creation failed: Token creation failed: No mint address returned"⟩
    | .ok (some mintAddress) =>
      .ok { s with createdToken := some ⟨name, symbol, mintAddress, supply, decimals⟩ }

/-- Embedding of `handleAddLiquidity`: requires a wallet and a token, positive
inputs, and sufficient balance; decrements the wallet's SOL balance. -/
def handleAddLiquidity (s : ServerState) (tokenAmount solAmount : ℚ) :
    HandlerResult :=
  if s.connectedWallet.isNone then
    .error ⟨.invalidRequest, "No wallet connected. Please connect a wallet first."⟩
  else if s.createdToken.isNone then
    .error ⟨.invalidRequest, "No token created. Please create a token first."⟩
  else if !(decide (0 < tokenAmount) && decide (0 < solAmount)) then
    .error ⟨.invalidParams, "zod validation failed"⟩
  else
    -- the wallet access is guarded by the null check above, so the
    -- `getD` default is never read
    let w := s.connectedWallet.getD ⟨"", 0⟩
    if w.solBalance < solAmount then
      .error ⟨.invalidRequest, "Insufficient SOL balance."⟩
    else
      .ok { s with connectedWallet := some { w with solBalance := w.solBalance - solAmount } }

/-- Recipients handed by `handleStartAirdrop` to the distribution engine:
`{ address, email, amount: employee.tokenAmount || 100 }` per employee. -/
def airdropRecipients (s : ServerState) : List Recipient :=
  s.employees.map fun e => ⟨e.walletAddress, e.email, some (jsOrQ e.tokenAmount 100)⟩

/-- Embedding of `handleStartAirdrop`.  The four precondition checks run in
source order before anything else; with no Helius API key configured the
handler replies with a prompt and changes nothing; otherwise the engine runs
and only a fully successful run mutates `airdropStatus`. -/
def handleStartAirdrop (s : ServerState) (heliusKey : Bool) (senderOk : Bool)
    (submit : Nat → Except String String) : HandlerResult :=
  if s.employees.length = 0 then
    .error ⟨.invalidRequest, "No employees added. Please generate wallets first."⟩
  else if s.connectedWallet.isNone then
    .error ⟨.invalidRequest, "No wallet connected. Please connect a wallet first."⟩
  else if s.createdToken.isNone then
    .error ⟨.invalidRequest, "No token created. Please create a token first."⟩
  else if s.employees.any fun e => e.tokenAmount.isNone then
    .error ⟨.invalidRequest,
      "Token amounts not calculated for all employees. Please calculate amounts first."⟩
  else if !heliusKey then
    .ok s
  else
    match (sendCompressedAirdrop senderOk submit (airdropRecipients s)).1 with
    | .ok _ =>
      .ok { s with airdropStatus := ⟨true, true, s.employees.length, 0⟩ }
    | .error e => .error ⟨.internalError, "Airdrop failed: " ++ e⟩

/-- Embedding of `handleSendEmails`.  `emailOutcome` is the oracle for
`sendWalletEmails` (its successful/failed counters, or a thrown error which
the dispatcher converts to an error reply). -/
def handleSendEmails (s : ServerState) (apiKey : Option String)
    (emailOutcome : Except String (Nat × Nat)) : HandlerResult :=
  if s.employees.length = 0 then
    .error ⟨.invalidRequest, "No employees added. Please generate wallets first."⟩
  else if !s.airdropStatus.completed then
    .error ⟨.invalidRequest, "Airdrop not completed. Please start the airdrop first."⟩
  else
    match apiKey with
    | none => .ok s
    | some _ =>
      match emailOutcome with
      | .error e => .error ⟨.internalError, "Email sending failed: " ++ e⟩
      | .ok (succ, fail) => .ok { s with emailsStatus := ⟨true, succ, fail⟩ }

/-- Embedding of `handleGetState`: a read-only snapshot. -/
def handleGetState (s : ServerState) : HandlerResult :=
  .ok s

/-! ## The tool dispatcher -/

/-- One tool invocation: the operation name together with its validated
arguments and the oracle outcomes of the external collaborators it consults. -/
inductive Op where
  | connectWallet (keyValid : Bool) (publicKey : String) (balance : ℚ)
  | connectCrossmintWallet (apiKey : Option String) (publicKey : String)
  | checkBalance
  | createToken (name symbol : String) (supply decimals : ℚ)
      (mintOutcome : Except String (Option String))
  | addLiquidity (tokenAmount solAmount : ℚ)
  | generateWallets (employeesText : String) (apiKey : Option String)
      (custodyOutcome : Except String (String → String))
  | uploadCsv (records : List CsvRow)
  | calculateAmounts (uniformAmount : Option ℚ) (roleAmounts : Option RoleAmounts)
  | calculateFees
  | startAirdrop (heliusKey senderOk : Bool) (submit : Nat → Except String String)
  | sendEmails (apiKey : Option String) (emailOutcome : Except String (Nat × Nat))
  | getState

/-- Embedding of `handleCalculateFees`: a read-only fee report (the inline
formula is the one of `calculateAirdropFees`); requires employees and a
wallet. -/
def handleCalculateFees (s : ServerState) : HandlerResult :=
  if s.employees.length = 0 then
    .error ⟨.invalidRequest, "No employees added. Please generate wallets first."⟩
  else if s.connectedWallet.isNone then
    .error ⟨.invalidRequest, "No wallet connected. Please connect a wallet first."⟩
  else
    .ok s

/-- The `CallToolRequestSchema` dispatch switch, restricted to the known tool
names. -/
def step (s : ServerState) : Op → HandlerResult
  | .connectWallet keyValid pk bal => handleConnectWallet s keyValid pk bal
  | .connectCrossmintWallet apiKey pk => handleConnectCrossmintWallet s apiKey pk
  | .checkBalance => handleCheckBalance s
  | .createToken name symbol supply decimals mint =>
    handleCreateToken s name symbol supply decimals mint
  | .addLiquidity tokenAmount solAmount => handleAddLiquidity s tokenAmount solAmount
  | .generateWallets text apiKey custody => handleGenerateWallets s text apiKey custody
  | .uploadCsv records => handleUploadCsv s records
  | .calculateAmounts u ra => handleCalculateAmounts s u ra
  | .calculateFees => handleCalculateFees s
  | .startAirdrop helius senderOk submit => handleStartAirdrop s helius senderOk submit
  | .sendEmails apiKey outcome => handleSendEmails s apiKey outcome
  | .getState => handleGetState s

/-- State after one tool call: a thrown `McpError` leaves `this.state`
untouched (every handler mutates the state only after its last possible
throw). -/
def stepState (s : ServerState) (op : Op) : ServerState :=
  match step s op with
  | .ok s' => s'
  | .error _ => s

/-- Email-distinctness of the registry. -/
def distinctEmails (s : ServerState) : Prop :=
  (s.employees.map Employee.email).Nodup

instance (s : ServerState) : Decidable (distinctEmails s) := by
  unfold distinctEmails; infer_instance

/-- Recognizer for `create_token` invocations. -/
def isCreateTokenOp : Op → Bool
  | .createToken _ _ _ _ _ => true
  | _ => false

/-- Email distinctness of the inputs of the two registry-replacing
operations (trivially true for every other operation). -/
def opInputEmailsDistinct : Op → Prop
  | .generateWallets text _ _ => ((parseEmployees text).map Prod.snd).Nodup
  | .uploadCsv records => (records.map fun r => r.email.getD "").Nodup
  | _ => True

/-- Relation between a CSV row and the registry record it produces on a
successful import: the matching pre-existing record with `name` and `role`
overwritten from the row (cleared when the row's value is missing or empty,
the role lowercased), `walletAddress` and `tokenAmount` untouched. -/
def csvMergeSpec (emps : List Employee) (r : CsvRow) (e' : Employee) : Prop :=
  ∃ ex, lookupEmployee emps (r.email.getD "") = some ex ∧
    e' = { ex with
            name := if strFalsy r.name then none else r.name
            role := if strFalsy r.role then none
                    else some (jsToLower (r.role.getD "")) }

/-! ## Concrete fixtures for witnesses and counterexamples -/

/-- Registry with one generated wallet, used as a concrete test state. -/
def csvS : ServerState :=
  { initialState with employees := [{ email := "a@x.com", walletAddress := "w1" }] }

/-- Test state whose single employee carries the (lowercased) role `vp`. -/
def vpS : ServerState :=
  { initialState with
      employees := [{ email := "a@x.com", walletAddress := "w1", role := some "vp" }] }

/-- Test state with a developer and a manager, the spec's end-to-end
allocation scenario. -/
def devMgrS : ServerState :=
  { initialState with
      employees := [{ email := "a@x.com", walletAddress := "w1", role := some "developer" },
                    { email := "b@x.com", walletAddress := "w2", role := some "manager" }] }

/-- Test state with only a wallet connected. -/
def walletS : ServerState :=
  { initialState with connectedWallet := some ⟨"pk", 1⟩ }

/-- Fully prepared test state: wallet, token, one employee with an assigned
token amount. -/
def readyS : ServerState :=
  { initialState with
      connectedWallet := some ⟨"pk", 1⟩
      createdToken := some ⟨"Tok", "TK", "mint1", 1000, 9⟩
      employees := [{ email := "a@x.com", walletAddress := "w1", tokenAmount := some 5 }] }

/-! ## Lemmas about the batch partition -/

theorem drop_batch_length_le {α : Type} (x : α) (xs : List α) (n : Nat)
    (hl : (x :: xs).length ≤ n + 1) : ((x :: xs).drop batchSize).length ≤ n := by
  simp only [List.length_drop, List.length_cons, batchSize] at hl ⊢
  omega

theorem chunkBatchesAux_join {α : Type} :
    ∀ (fuel : Nat) (l : List α), l.length ≤ fuel →
      (chunkBatchesAux fuel l).flatten = l := by
  intro fuel
  induction fuel with
  | zero =>
    intro l hl
    cases l with
    | nil => rfl
    | cons x xs => simp at hl
  | succ n ih =>
    intro l hl
    cases l with
    | nil => rfl
    | cons x xs =>
      simp only [chunkBatchesAux, List.flatten_cons]
      rw [ih ((x :: xs).drop batchSize) (drop_batch_length_le x xs n hl)]
      exact List.take_append_drop _ _

theorem chunkBatchesAux_ne_nil {α : Type} (fuel : Nat) (x : α) (xs : List α)
    (h : (x :: xs).length ≤ fuel) : chunkBatchesAux fuel (x :: xs) ≠ [] := by
  cases fuel with
  | zero => simp at h
  | succ n => simp [chunkBatchesAux]

theorem chunkBatchesAux_mem {α : Type} :
    ∀ (fuel : Nat) (l : List α), l.length ≤ fuel →
      ∀ b ∈ chunkBatchesAux fuel l, b ≠ [] ∧ b.length ≤ batchSize := by
  intro fuel
  induction fuel with
  | zero =>
    intro l hl b hb
    cases l with
    | nil => simp [chunkBatchesAux] at hb
    | cons x xs => simp at hl
  | succ n ih =>
    intro l hl b hb
    cases l with
    | nil => simp [chunkBatchesAux] at hb
    | cons x xs =>
      simp only [chunkBatchesAux, List.mem_cons] at hb
      rcases hb with hb | hb
      · subst hb
        constructor
        · simp [batchSize]
        · exact List.length_take_le _ _
      · exact ih _ (drop_batch_length_le x xs n hl) b hb

theorem chunkBatchesAux_dropLast {α : Type} :
    ∀ (fuel : Nat) (l : List α), l.length ≤ fuel →
      ∀ b ∈ (chunkBatchesAux fuel l).dropLast, b.length = batchSize := by
  intro fuel
  induction fuel with
  | zero =>
    intro l hl b hb
    cases l with
    | nil => simp [chunkBatchesAux] at hb
    | cons x xs => simp at hl
  | succ n ih =>
    intro l hl b hb
    cases l with
    | nil => simp [chunkBatchesAux] at hb
    | cons x xs =>
      by_cases hdrop : (x :: xs).drop batchSize = []
      · simp [chunkBatchesAux, hdrop] at hb
      · obtain ⟨y, ys, hy⟩ := List.exists_cons_of_ne_nil hdrop
        have hne : chunkBatchesAux n ((x :: xs).drop batchSize) ≠ [] := by
          rw [hy]
          apply chunkBatchesAux_ne_nil
          rw [← hy]
          exact drop_batch_length_le x xs n hl
        simp only [chunkBatchesAux] at hb
        rw [List.dropLast_cons_of_ne_nil hne, List.mem_cons] at hb
        rcases hb with hb | hb
        · subst hb
          have hlen : batchSize < (x :: xs).length := by
            by_contra hcon
            push_neg at hcon
            exact hdrop (List.drop_eq_nil_of_le hcon)
          simp only [List.length_take, List.length_cons, batchSize] at hlen ⊢
          omega
        · exact ih _ (drop_batch_length_le x xs n hl) b hb

/-- C7: the distribution engine partitions every recipient list into
consecutive batches of size at most 5 whose concatenation, in order, is the
original list, every batch but possibly the last having size exactly 5; a
13-recipient list yields exactly the batch sizes [5, 5, 3]. -/
theorem claim_C7_batch_partition (l : List Recipient) :
    (chunkBatches l).flatten = l ∧
    (∀ b ∈ chunkBatches l, b ≠ [] ∧ b.length ≤ 5) ∧
    (∀ b ∈ (chunkBatches l).dropLast, b.length = 5) ∧
    (l.length = 13 → (chunkBatches l).map List.length = [5, 5, 3]) := by
  refine ⟨chunkBatchesAux_join _ _ le_rfl,
          fun b hb => chunkBatchesAux_mem _ _ le_rfl b hb,
          fun b hb => chunkBatchesAux_dropLast _ _ le_rfl b hb,
          fun h13 => ?_⟩
  have hnil : l ≠ [] := by
    intro hnil
    rw [hnil] at h13
    simp at h13
  obtain ⟨x, xs, rfl⟩ := List.exists_cons_of_ne_nil hnil
  have hxlen : xs.length = 12 := by simpa using h13
  have hdy : ((x :: xs).drop batchSize).length = 8 := by
    simp [List.length_drop, batchSize, hxlen]
  obtain ⟨y, ys, hy⟩ := List.exists_cons_of_ne_nil (l := (x :: xs).drop batchSize)
    (by intro hn'; rw [hn'] at hdy; simp at hdy)
  have hylen : (y :: ys).length = 8 := hy ▸ hdy
  have hdz : ((y :: ys).drop batchSize).length = 3 := by
    simp only [List.length_drop, hylen, batchSize]
  obtain ⟨z, zs, hz⟩ := List.exists_cons_of_ne_nil (l := (y :: ys).drop batchSize)
    (by intro hn'; rw [hn'] at hdz; simp at hdz)
  have hzlen : (z :: zs).length = 3 := hz ▸ hdz
  have hzdrop : (z :: zs).drop batchSize = [] := by
    apply List.drop_eq_nil_of_le
    rw [hzlen]
    simp [batchSize]
  have t1 : (List.take batchSize (x :: xs)).length = 5 := by
    simp [List.length_take, batchSize, hxlen]
  have t2 : (List.take batchSize (y :: ys)).length = 5 := by
    have : ys.length = 7 := by simpa using hylen
    simp [List.length_take, batchSize, this]
  have t3 : (List.take batchSize (z :: zs)).length = 3 := by
    have : zs.length = 2 := by simpa using hzlen
    simp [List.length_take, batchSize, this]
  unfold chunkBatches
  rw [h13]
  show (chunkBatchesAux (12 + 1) (x :: xs)).map List.length = [5, 5, 3]
  simp only [chunkBatchesAux, hy, List.map_cons]
  show (_ :: (chunkBatchesAux (11 + 1) (y :: ys)).map List.length : List Nat) = _
  simp only [chunkBatchesAux, hz, List.map_cons]
  show (_ :: _ :: (chunkBatchesAux (10 + 1) (z :: zs)).map List.length : List Nat) = _
  simp only [chunkBatchesAux, hzdrop, List.map_cons]
  show (_ :: _ :: _ :: (chunkBatchesAux 10 []).map List.length : List Nat) = _
  simp only [chunkBatchesAux, List.map_nil, t1, t2, t3]

/-- C9: the fee calculation is the linear formula
`accountCreationFee = 0.00001 * N`, `transactionFee = 0.000005 * N`,
`totalFee = accountCreationFee + transactionFee`; it is total (no error
conditions) and `N = 0` yields all-zero fees. -/
theorem claim_C7_witness :
    (chunkBatches (List.replicate 13 ({ address := "w", email := "a@x.com" } : Recipient))).map
        List.length = [5, 5, 3] :=
  (claim_C7_batch_partition
    (List.replicate 13 ({ address := "w", email := "a@x.com" } : Recipient))).2.2.2 (by decide)

theorem claim_C9_fee_formula (n : ℚ) (_hn : 0 ≤ n) :
    (calculateAirdropFees n).totalFees
        = (calculateAirdropFees n).accountCreationFee + (calculateAirdropFees n).transactionFee ∧
    (calculateAirdropFees n).accountCreationFee = (1 / 100000) * n ∧
    (calculateAirdropFees n).transactionFee = (1 / 200000) * n ∧
    (∀ c : ℚ, calculateAirdropFees (c * n) =
      ⟨c * (calculateAirdropFees n).accountCreationFee,
       c * (calculateAirdropFees n).transactionFee,
       c * (calculateAirdropFees n).totalFees⟩) ∧
    calculateAirdropFees 0 = ⟨0, 0, 0⟩ := by
  refine ⟨rfl, rfl, rfl, fun c => ?_, ?_⟩ <;>
    simp only [calculateAirdropFees, AirdropFees.mk.injEq] <;>
    refine ⟨by ring, by ring, by ring⟩

theorem claim_C9_witness :
    (0 : ℚ) ≤ 3 ∧
      (calculateAirdropFees 3).totalFees
        = (calculateAirdropFees 3).accountCreationFee + (calculateAirdropFees 3).transactionFee :=
  ⟨by norm_num, (claim_C9_fee_formula 3 (by norm_num)).1⟩

/-! ## C1: start_airdrop preconditions -/

/-- C1: in every workflow state missing a prerequisite (empty employee list,
no connected wallet, no created token, or some record without `tokenAmount`),
`start_airdrop` fails with a `PreconditionError` (`ErrCode.invalidRequest`)
whose message names a prerequisite that is in fact missing, the state —
`airdropStatus` included — is unchanged, and the distribution engine is not
invoked (the result is the same for every engine oracle `senderOk`/`submit`,
over which the theorem quantifies).  The empty-registry case covers invoking
`start_airdrop` before `generate_wallets`. -/
theorem claim_C1_start_airdrop_preconditions (s : ServerState)
    (heliusKey senderOk : Bool) (submit : Nat → Except String String)
    (h : s.employees = [] ∨ s.connectedWallet = none ∨ s.createdToken = none ∨
         ∃ e ∈ s.employees, e.tokenAmount = none) :
    ∃ msg : String,
      step s (.startAirdrop heliusKey senderOk submit) = .error ⟨.invalidRequest, msg⟩ ∧
      stepState s (.startAirdrop heliusKey senderOk submit) = s ∧
      ((msg = "No employees added. Please generate wallets first." ∧ s.employees = []) ∨
       (msg = "No wallet connected. Please connect a wallet first." ∧
         s.connectedWallet = none) ∨
       (msg = "No token created. Please create a token first." ∧ s.createdToken = none) ∨
       (msg = "Token amounts not calculated for all employees. Please calculate amounts first." ∧
         ∃ e ∈ s.employees, e.tokenAmount = none)) := by
  by_cases h1 : s.employees.length = 0
  · have heq : s.employees = [] := List.length_eq_zero.mp h1
    refine ⟨_, by simp [step, handleStartAirdrop, h1],
            by simp [stepState, step, handleStartAirdrop, h1], Or.inl ⟨rfl, heq⟩⟩
  · by_cases h2 : s.connectedWallet.isNone
    · have heq2 : s.connectedWallet = none := Option.isNone_iff_eq_none.mp h2
      refine ⟨_, by simp [step, handleStartAirdrop, h1, h2],
              by simp [stepState, step, handleStartAirdrop, h1, h2],
              Or.inr (Or.inl ⟨rfl, heq2⟩)⟩
    · by_cases h3 : s.createdToken.isNone
      · have heq3 : s.createdToken = none := Option.isNone_iff_eq_none.mp h3
        refine ⟨_, by simp [step, handleStartAirdrop, h1, h2, h3],
                by simp [stepState, step, handleStartAirdrop, h1, h2, h3],
                Or.inr (Or.inr (Or.inl ⟨rfl, heq3⟩))⟩
      · by_cases h4 : (s.employees.any fun e => e.tokenAmount.isNone) = true
        · have hexists : ∃ e ∈ s.employees, e.tokenAmount = none := by
            rw [List.any_eq_true] at h4
            obtain ⟨e, he, hne⟩ := h4
            exact ⟨e, he, Option.isNone_iff_eq_none.mp hne⟩
          refine ⟨_, by simp [step, handleStartAirdrop, h1, h2, h3, h4],
                  by simp [stepState, step, handleStartAirdrop, h1, h2, h3, h4],
                  Or.inr (Or.inr (Or.inr ⟨rfl, hexists⟩))⟩
        · exfalso
          rcases h with h | h | h | ⟨e, he, hnone⟩
          · exact h1 (by simp [h])
          · exact h2 (by simp [h])
          · exact h3 (by simp [h])
          · exact h4 (List.any_eq_true.mpr ⟨e, he, by simp [hnone]⟩)

theorem claim_C1_witness :
    (initialState.employees = [] ∨ initialState.connectedWallet = none ∨
     initialState.createdToken = none ∨
     ∃ e ∈ initialState.employees, e.tokenAmount = none) ∧
    ∃ msg : String,
      step initialState (.startAirdrop true true fun _ => .ok "sig")
        = .error ⟨.invalidRequest, msg⟩ ∧
      stepState initialState (.startAirdrop true true fun _ => .ok "sig") = initialState ∧
      ((msg = "No employees added. Please generate wallets first." ∧
         initialState.employees = []) ∨
       (msg = "No wallet connected. Please connect a wallet first." ∧
         initialState.connectedWallet = none) ∨
       (msg = "No token created. Please create a token first." ∧
         initialState.createdToken = none) ∨
       (msg = "Token amounts not calculated for all employees. Please calculate amounts first." ∧
         ∃ e ∈ initialState.employees, e.tokenAmount = none)) :=
  ⟨Or.inl rfl,
   claim_C1_start_airdrop_preconditions initialState true true (fun _ => .ok "sig")
     (Or.inl rfl)⟩

/-! ## C3: role validation (code bug) -/

/-- C3: contrary to the claim, the role check of `handleUploadCsv` rejects
`VP` and `VIP` in every casing: `validRoles` stores them uppercase but the
code compares the lowercased CSV value with `includes`, so only the three
all-lowercase enum members are accepted (case-insensitively).  The error
message itself still lists `VP` and `VIP` as valid, contradicting the check.
`Intern` is rejected listing the five roles, and `Developer` is accepted,
as the claim states. -/
theorem claim_C3_role_validation_bug :
    (handleUploadCsv csvS [{ email := some "a@x.com", role := some "VP" }]
       = .error ⟨.invalidParams,
           "Invalid role \"VP\" for a@x.com. Valid roles are: operational, developer, manager, VP, VIP."⟩) ∧
    (handleUploadCsv csvS [{ email := some "a@x.com", role := some "vp" }]
       = .error ⟨.invalidParams,
           "Invalid role \"vp\" for a@x.com. Valid roles are: operational, developer, manager, VP, VIP."⟩) ∧
    (handleUploadCsv csvS [{ email := some "a@x.com", role := some "Vip" }]
       = .error ⟨.invalidParams,
           "Invalid role \"Vip\" for a@x.com. Valid roles are: operational, developer, manager, VP, VIP."⟩) ∧
    (handleUploadCsv csvS [{ email := some "a@x.com", role := some "Intern" }]
       = .error ⟨.invalidParams,
           "Invalid role \"Intern\" for a@x.com. Valid roles are: operational, developer, manager, VP, VIP."⟩) ∧
    (handleUploadCsv csvS [{ email := some "a@x.com", role := some "Developer" }]
       = .ok { csvS with
                employees := [{ email := "a@x.com", walletAddress := "w1",
                                role := some "developer" }] }) := by
  decide

/-! ## C4: allocation with caller-supplied role amounts (code bug) -/

/-- C4: contrary to the claim, a caller-supplied `roleAmounts.VP` (or `VIP`)
is ignored: spreading `roleAmounts` over `defaultRoleTokens` adds the key
`VP`, but the lookup reads the lowercase key `vp`, which still holds the
built-in 400 — so an employee with role `vp` gets 400, not the supplied
1000.  The caller-supplied value does work for the lowercase-keyed roles
(developer 77), and with no `roleAmounts` the defaults apply: developer 200,
manager 300, a roleless record 100, as the claim states. -/
theorem claim_C4_roleAmounts_vp_ignored :
    (handleCalculateAmounts vpS none (some { VP := some 1000 })
       = .ok { vpS with
                employees := [{ email := "a@x.com", walletAddress := "w1",
                                role := some "vp", tokenAmount := some 400 }] }) ∧
    (objGet (roleTokens { VP := some 1000 }) "VP" = some 1000) ∧
    (objGet (roleTokens { VP := some 1000 }) "vp" = some 400) ∧
    (handleCalculateAmounts devMgrS none (some { developer := some 77 })
       = .ok { devMgrS with
                employees := [{ email := "a@x.com", walletAddress := "w1",
                                role := some "developer", tokenAmount := some 77 },
                              { email := "b@x.com", walletAddress := "w2",
                                role := some "manager", tokenAmount := some 300 }] }) ∧
    (handleCalculateAmounts devMgrS none none
       = .ok { devMgrS with
                employees := [{ email := "a@x.com", walletAddress := "w1",
                                role := some "developer", tokenAmount := some 200 },
                              { email := "b@x.com", walletAddress := "w2",
                                role := some "manager", tokenAmount := some 300 }] }) ∧
    (handleCalculateAmounts csvS none none
       = .ok { csvS with
                employees := [{ email := "a@x.com", walletAddress := "w1",
                                tokenAmount := some 100 }] }) := by
  decide

/-! ## C5: registry email uniqueness -/

theorem lookupEmployee_email {emps : List Employee} {em : String} {ex : Employee}
    (h : lookupEmployee emps em = some ex) : ex.email = em := by
  unfold lookupEmployee at h
  have hfind := List.find?_some h
  simpa using hfind

theorem processCsvRow_ok {emps : List Employee} {r : CsvRow} {v : Employee}
    (h : processCsvRow emps r = .ok v) :
    ∃ ex, lookupEmployee emps (r.email.getD "") = some ex ∧
      v = { ex with
              name := if strFalsy r.name then none else r.name
              role := if strFalsy r.role then none
                      else some (jsToLower (r.role.getD "")) } := by
  unfold processCsvRow at h
  split at h
  · exact Except.noConfusion h
  · split at h
    · exact Except.noConfusion h
    · rename_i ex hlook
      split at h
      · exact Except.noConfusion h
      · cases h
        exact ⟨ex, hlook, rfl⟩

theorem processCsvRows_emails (emps : List Employee) :
    ∀ (rows : List CsvRow) (l : List Employee),
      processCsvRows emps rows = .ok l →
      l.map Employee.email = rows.map fun r => r.email.getD "" := by
  intro rows
  induction rows with
  | nil =>
    intro l h
    simp only [processCsvRows] at h
    cases h
    rfl
  | cons r rs ih =>
    intro l h
    simp only [processCsvRows] at h
    cases hrow : processCsvRow emps r with
    | error e => rw [hrow] at h; exact Except.noConfusion h
    | ok v =>
      rw [hrow] at h
      cases hrec : processCsvRows emps rs with
      | error e => rw [hrec] at h; exact Except.noConfusion h
      | ok rest =>
        rw [hrec] at h
        cases h
        obtain ⟨ex, hlook, hv⟩ := processCsvRow_ok hrow
        simp only [List.map_cons]
        rw [ih rest hrec, hv]
        have hex : ex.email = r.email.getD "" := lookupEmployee_email hlook
        simp [hex]

/-- C5 counterexample: from the reachable state with only a wallet connected
(whose registry trivially has distinct emails), a successful
`generate_wallets` call on a text block listing the same email twice yields a
registry with two records carrying the same email — the operation does not
preserve email uniqueness. -/
theorem claim_C5_counterexample :
    step initialState (.connectWallet true "pk" 1) = .ok walletS ∧
    distinctEmails walletS ∧
    step walletS (.generateWallets "a@x.com\na@x.com" (some "key") (.ok fun _ => "w"))
      = .ok { walletS with employees :=
                [{ email := "a@x.com", walletAddress := "w" },
                 { email := "a@x.com", walletAddress := "w" }] } ∧
    ¬ distinctEmails { walletS with employees :=
        [{ email := "a@x.com", walletAddress := "w" },
         { email := "a@x.com", walletAddress := "w" }] } := by
  refine ⟨by decide, by decide, by decide, by decide⟩

/-- C5 amended: every successful operation preserves registry email
distinctness provided the registry-replacing inputs themselves carry
pairwise-distinct emails — `generate_wallets` requires the parsed emails of
its text block to be distinct and `upload_csv` requires the row emails to be
distinct (the source deduplicates neither, so duplicated input emails
produce a duplicated registry); every other operation never changes the
registry's email list. -/
theorem claim_C5_amended (s : ServerState) (op : Op) (s' : ServerState)
    (hd : distinctEmails s) (hop : opInputEmailsDistinct op)
    (hstep : step s op = .ok s') : distinctEmails s' := by
  have hpreserve : ∀ t : ServerState, t.employees.map Employee.email
      = s.employees.map Employee.email → distinctEmails t := by
    intro t ht
    unfold distinctEmails at hd ⊢
    rw [ht]
    exact hd
  cases op with
  | connectWallet keyValid pk bal =>
    cases keyValid with
    | false => exact Except.noConfusion hstep
    | true =>
      cases hstep
      exact hd
  | connectCrossmintWallet apiKey pk =>
    cases apiKey with
    | none => cases hstep; exact hd
    | some k => cases hstep; exact hd
  | checkBalance =>
    simp only [step, handleCheckBalance] at hstep
    split at hstep
    · exact Except.noConfusion hstep
    · cases hstep; exact hd
  | createToken name symbol supply decimals mintOutcome =>
    simp only [step, handleCreateToken] at hstep
    split at hstep
    · exact Except.noConfusion hstep
    · split at hstep
      · exact Except.noConfusion hstep
      · cases mintOutcome with
        | error e => exact Except.noConfusion hstep
        | ok om =>
          cases om with
          | none => exact Except.noConfusion hstep
          | some m => cases hstep; exact hd
  | addLiquidity tokenAmount solAmount =>
    simp only [step, handleAddLiquidity] at hstep
    split at hstep
    · exact Except.noConfusion hstep
    · split at hstep
      · exact Except.noConfusion hstep
      · split at hstep
        · exact Except.noConfusion hstep
        · split at hstep
          · exact Except.noConfusion hstep
          · cases hstep; exact hd
  | generateWallets text apiKey custody =>
    simp only [step, handleGenerateWallets] at hstep
    split at hstep
    · exact Except.noConfusion hstep
    · cases apiKey with
      | none => cases hstep; exact hd
      | some k =>
        simp only at hstep
        split at hstep
        · exact Except.noConfusion hstep
        · cases custody with
          | error e => exact Except.noConfusion hstep
          | ok addr =>
            cases hstep
            have hop2 : ((parseEmployees text).map Prod.snd).Nodup := by
              simpa [opInputEmailsDistinct] using hop
            unfold distinctEmails
            simpa [List.map_map, Function.comp_def] using hop2
  | uploadCsv records =>
    cases records with
    | nil => exact Except.noConfusion hstep
    | cons first rest =>
      simp only [step, handleUploadCsv] at hstep
      split at hstep
      · exact Except.noConfusion hstep
      · cases hrec : processCsvRows s.employees (first :: rest) with
        | error e => rw [hrec] at hstep; exact Except.noConfusion hstep
        | ok l =>
          rw [hrec] at hstep
          cases hstep
          unfold distinctEmails
          simp only
          rw [processCsvRows_emails s.employees (first :: rest) l hrec]
          simpa [opInputEmailsDistinct] using hop
  | calculateAmounts uniformAmount roleAmounts =>
    simp only [step, handleCalculateAmounts] at hstep
    split at hstep
    · exact Except.noConfusion hstep
    · split at hstep
      · exact Except.noConfusion hstep
      · cases hstep
        apply hpreserve
        simp
  | calculateFees =>
    simp only [step, handleCalculateFees] at hstep
    split at hstep
    · exact Except.noConfusion hstep
    · split at hstep
      · exact Except.noConfusion hstep
      · cases hstep; exact hd
  | startAirdrop heliusKey senderOk submit =>
    simp only [step, handleStartAirdrop] at hstep
    split at hstep
    · exact Except.noConfusion hstep
    · split at hstep
      · exact Except.noConfusion hstep
      · split at hstep
        · exact Except.noConfusion hstep
        · split at hstep
          · exact Except.noConfusion hstep
          · split at hstep
            · cases hstep; exact hd
            · split at hstep
              · cases hstep; exact hd
              · exact Except.noConfusion hstep
  | sendEmails apiKey emailOutcome =>
    simp only [step, handleSendEmails] at hstep
    split at hstep
    · exact Except.noConfusion hstep
    · split at hstep
      · exact Except.noConfusion hstep
      · cases apiKey with
        | none => cases hstep; exact hd
        | some k =>
          cases emailOutcome with
          | error e => exact Except.noConfusion hstep
          | ok p => cases hstep; exact hd
  | getState => cases hstep; exact hd

theorem claim_C5_amended_witness :
    distinctEmails csvS ∧
    opInputEmailsDistinct (Op.uploadCsv [{ email := some "a@x.com", role := some "Developer" }]) ∧
    distinctEmails { csvS with
      employees := [{ email := "a@x.com", walletAddress := "w1",
                      role := some "developer" }] } :=
  ⟨by decide, by simp only [opInputEmailsDistinct]; decide,
   claim_C5_amended csvS
     (Op.uploadCsv [{ email := some "a@x.com", role := some "Developer" }])
     { csvS with employees := [{ email := "a@x.com", walletAddress := "w1",
                                 role := some "developer" }] }
     (by decide) (by simp only [opInputEmailsDistinct]; decide) (by decide)⟩

/-! ## C6: immutability of createdToken -/

/-- C6 counterexample: `handleCreateToken` never checks whether a token was
already created, so from a reachable state with `createdToken` set, a second
successful `create_token` call replaces the stored token's name, symbol,
mint address, supply and decimals. -/
theorem claim_C6_counterexample :
    step initialState (.connectWallet true "pk" 1) = .ok walletS ∧
    step walletS (.createToken "Tok1" "T1" 1000 9 (.ok (some "mint1")))
      = .ok { walletS with createdToken := some ⟨"Tok1", "T1", "mint1", 1000, 9⟩ } ∧
    ({ walletS with createdToken := some ⟨"Tok1", "T1", "mint1", 1000, 9⟩ }
        : ServerState).createdToken ≠ none ∧
    step { walletS with createdToken := some ⟨"Tok1", "T1", "mint1", 1000, 9⟩ }
        (.createToken "Tok2" "T2" 500 6 (.ok (some "mint2")))
      = .ok { walletS with createdToken := some ⟨"Tok2", "T2", "mint2", 500, 6⟩ } ∧
    (some (⟨"Tok2", "T2", "mint2", 500, 6⟩ : CreatedToken))
      ≠ some ⟨"Tok1", "T1", "mint1", 1000, 9⟩ := by
  refine ⟨by decide, by decide, by decide, by decide, by decide⟩

/-- C6 amended: `createdToken` is modified only by `create_token`: every
other operation leaves it unchanged, and a successful `create_token` call
stores the token built from its own arguments, overwriting any previously
stored token (set-at-most-once is not enforced). -/
theorem claim_C6_amended :
    (∀ (s : ServerState) (op : Op), isCreateTokenOp op = false →
       (stepState s op).createdToken = s.createdToken) ∧
    (∀ (s : ServerState) (name symbol : String) (supply decimals : ℚ) (m : String)
        (s' : ServerState),
       step s (.createToken name symbol supply decimals (.ok (some m))) = .ok s' →
       s'.createdToken = some ⟨name, symbol, m, supply, decimals⟩) := by
  constructor
  · intro s op hop
    cases hstep : step s op with
    | error e => simp [stepState, hstep]
    | ok s' =>
      simp only [stepState, hstep]
      cases op with
      | connectWallet keyValid pk bal =>
        cases keyValid with
        | false => exact Except.noConfusion hstep
        | true => cases hstep; rfl
      | connectCrossmintWallet apiKey pk =>
        cases apiKey with
        | none => cases hstep; rfl
        | some k => cases hstep; rfl
      | checkBalance =>
        simp only [step, handleCheckBalance] at hstep
        split at hstep
        · exact Except.noConfusion hstep
        · cases hstep; rfl
      | createToken name symbol supply decimals mintOutcome =>
        simp [isCreateTokenOp] at hop
      | addLiquidity tokenAmount solAmount =>
        simp only [step, handleAddLiquidity] at hstep
        split at hstep
        · exact Except.noConfusion hstep
        · split at hstep
          · exact Except.noConfusion hstep
          · split at hstep
            · exact Except.noConfusion hstep
            · split at hstep
              · exact Except.noConfusion hstep
              · cases hstep; rfl
      | generateWallets text apiKey custody =>
        simp only [step, handleGenerateWallets] at hstep
        split at hstep
        · exact Except.noConfusion hstep
        · cases apiKey with
          | none => cases hstep; rfl
          | some k =>
            simp only at hstep
            split at hstep
            · exact Except.noConfusion hstep
            · cases custody with
              | error e => exact Except.noConfusion hstep
              | ok addr => cases hstep; rfl
      | uploadCsv records =>
        cases records with
        | nil => exact Except.noConfusion hstep
        | cons first rest =>
          simp only [step, handleUploadCsv] at hstep
          split at hstep
          · exact Except.noConfusion hstep
          · cases hrec : processCsvRows s.employees (first :: rest) with
            | error e => rw [hrec] at hstep; exact Except.noConfusion hstep
            | ok l => rw [hrec] at hstep; cases hstep; rfl
      | calculateAmounts uniformAmount roleAmounts =>
        simp only [step, handleCalculateAmounts] at hstep
        split at hstep
        · exact Except.noConfusion hstep
        · split at hstep
          · exact Except.noConfusion hstep
          · cases hstep; rfl
      | calculateFees =>
        simp only [step, handleCalculateFees] at hstep
        split at hstep
        · exact Except.noConfusion hstep
        · split at hstep
          · exact Except.noConfusion hstep
          · cases hstep; rfl
      | startAirdrop heliusKey senderOk submit =>
        simp only [step, handleStartAirdrop] at hstep
        split at hstep
        · exact Except.noConfusion hstep
        · split at hstep
          · exact Except.noConfusion hstep
          · split at hstep
            · exact Except.noConfusion hstep
            · split at hstep
              · exact Except.noConfusion hstep
              · split at hstep
                · cases hstep; rfl
                · split at hstep
                  · cases hstep; rfl
                  · exact Except.noConfusion hstep
      | sendEmails apiKey emailOutcome =>
        simp only [step, handleSendEmails] at hstep
        split at hstep
        · exact Except.noConfusion hstep
        · split at hstep
          · exact Except.noConfusion hstep
          · cases apiKey with
            | none => cases hstep; rfl
            | some k =>
              cases emailOutcome with
              | error e => exact Except.noConfusion hstep
              | ok p => cases hstep; rfl
      | getState => cases hstep; rfl
  · intro s name symbol supply decimals m s' h
    simp only [step, handleCreateToken] at h
    split at h
    · exact Except.noConfusion h
    · split at h
      · exact Except.noConfusion h
      · cases h; rfl

theorem claim_C6_amended_witness :
    isCreateTokenOp Op.getState = false ∧
    (stepState initialState Op.getState).createdToken = initialState.createdToken :=
  ⟨rfl, claim_C6_amended.1 initialState Op.getState rfl⟩

/-! ## Shared CSV-import lemmas -/

theorem processCsvRow_ok_email {emps : List Employee} {r : CsvRow} {v : Employee}
    (h : processCsvRow emps r = .ok v) : strFalsy r.email = false := by
  unfold processCsvRow at h
  cases hb : strFalsy r.email with
  | false => rfl
  | true => rw [if_pos hb] at h; exact Except.noConfusion h

theorem processCsvRow_error_code {emps : List Employee} {r : CsvRow} {e : McpError}
    (h : processCsvRow emps r = .error e) : e.code = .invalidParams := by
  unfold processCsvRow at h
  split at h
  · cases h; rfl
  · split at h
    · cases h; rfl
    · split at h
      · cases h; rfl
      · exact Except.noConfusion h

theorem processCsvRows_error_code (emps : List Employee) :
    ∀ (rows : List CsvRow) (e : McpError),
      processCsvRows emps rows = .error e → e.code = .invalidParams := by
  intro rows
  induction rows with
  | nil => intro e h; exact Except.noConfusion h
  | cons r rs ih =>
    intro e h
    simp only [processCsvRows] at h
    cases hrow : processCsvRow emps r with
    | error e0 =>
      rw [hrow] at h
      cases h
      exact processCsvRow_error_code hrow
    | ok v =>
      rw [hrow] at h
      cases hrec : processCsvRows emps rs with
      | error e0 =>
        rw [hrec] at h
        cases h
        exact ih _ hrec
      | ok rest => rw [hrec] at h; exact Except.noConfusion h

theorem processCsvRows_ok_each (emps : List Employee) :
    ∀ (rows : List CsvRow) (l : List Employee),
      processCsvRows emps rows = .ok l →
      ∀ q ∈ rows, ∃ v, processCsvRow emps q = .ok v := by
  intro rows
  induction rows with
  | nil => intro l _ q hq; exact absurd hq (List.not_mem_nil q)
  | cons r rs ih =>
    intro l h q hq
    simp only [processCsvRows] at h
    cases hrow : processCsvRow emps r with
    | error e => rw [hrow] at h; exact Except.noConfusion h
    | ok v =>
      rw [hrow] at h
      cases hrec : processCsvRows emps rs with
      | error e => rw [hrec] at h; exact Except.noConfusion h
      | ok rest =>
        rcases List.mem_cons.mp hq with rfl | hq'
        · exact ⟨v, hrow⟩
        · exact ih rest hrec q hq'

theorem processCsvRows_forall₂ (emps : List Employee) :
    ∀ (rows : List CsvRow) (l : List Employee),
      processCsvRows emps rows = .ok l →
      List.Forall₂ (csvMergeSpec emps) rows l := by
  intro rows
  induction rows with
  | nil =>
    intro l h
    cases h
    exact List.Forall₂.nil
  | cons r rs ih =>
    intro l h
    simp only [processCsvRows] at h
    cases hrow : processCsvRow emps r with
    | error e => rw [hrow] at h; exact Except.noConfusion h
    | ok v =>
      rw [hrow] at h
      cases hrec : processCsvRows emps rs with
      | error e => rw [hrec] at h; exact Except.noConfusion h
      | ok rest =>
        rw [hrec] at h
        cases h
        exact List.Forall₂.cons (processCsvRow_ok hrow) (ih rest hrec)

theorem handleUploadCsv_ok_rows {s : ServerState} {records : List CsvRow}
    {s' : ServerState} (h : handleUploadCsv s records = .ok s') :
    ∃ l, processCsvRows s.employees records = .ok l ∧
      s' = { s with employees := l } := by
  cases records with
  | nil => exact Except.noConfusion h
  | cons first rest =>
    simp only [handleUploadCsv] at h
    by_cases hcol : first.email.isNone = true
    · rw [if_pos hcol] at h
      exact Except.noConfusion h
    · rw [if_neg hcol] at h
      cases hrec : processCsvRows s.employees (first :: rest) with
      | error e => rw [hrec] at h; exact Except.noConfusion h
      | ok l =>
        rw [hrec] at h
        cases h
        exact ⟨l, rfl, rfl⟩

theorem handleUploadCsv_error_code {s : ServerState} {records : List CsvRow}
    {e : McpError} (h : handleUploadCsv s records = .error e) :
    e.code = .invalidParams := by
  cases records with
  | nil => cases h; rfl
  | cons first rest =>
    simp only [handleUploadCsv] at h
    by_cases hcol : first.email.isNone = true
    · rw [if_pos hcol] at h
      cases h
      rfl
    · rw [if_neg hcol] at h
      cases hrec : processCsvRows s.employees (first :: rest) with
      | error e0 =>
        rw [hrec] at h
        cases h
        exact processCsvRows_error_code s.employees _ _ hrec
      | ok l => rw [hrec] at h; exact Except.noConfusion h

/-! ## C10: exact shape of the registry after a successful CSV import -/

/-- C10: after every successful `upload_csv` call the registry is exactly the
CSV rows in row order, each merged per `csvMergeSpec`: the matching
pre-existing record keeps its `walletAddress` and `tokenAmount`, `name` and
`role` come solely from the row (a missing or empty value clears the stored
one), and pre-existing employees whose email is not among the rows are gone
(`Forall₂` forces length and order). -/
theorem claim_C10_csv_replaces_registry (s : ServerState) (records : List CsvRow)
    (s' : ServerState) (h : handleUploadCsv s records = .ok s') :
    List.Forall₂ (csvMergeSpec s.employees) records s'.employees ∧
    s'.employees.length = records.length := by
  obtain ⟨l, hrows, rfl⟩ := handleUploadCsv_ok_rows h
  have hf := processCsvRows_forall₂ s.employees records l hrows
  exact ⟨hf, (List.Forall₂.length_eq hf).symm⟩

theorem claim_C10_witness :
    (handleUploadCsv csvS [{ email := some "a@x.com", name := some "Al", role := some "Developer" }]
       = .ok { csvS with employees := [{ name := some "Al", email := "a@x.com",
                                         role := some "developer", walletAddress := "w1" }] }) ∧
    List.Forall₂ (csvMergeSpec csvS.employees)
      [{ email := some "a@x.com", name := some "Al", role := some "Developer" }]
      [{ name := some "Al", email := "a@x.com", role := some "developer",
         walletAddress := "w1" }] :=
  ⟨by decide,
   (claim_C10_csv_replaces_registry csvS
     [{ email := some "a@x.com", name := some "Al", role := some "Developer" }]
     { csvS with employees := [{ name := some "Al", email := "a@x.com",
                                 role := some "developer", walletAddress := "w1" }] }
     (by decide)).1⟩

/-! ## C8: CSV rows with unknown emails -/

/-- C8 counterexample: with registry `[a@x.com]`, the CSV
`[{email: ""}, {email: "b@x.com"}]` contains a row whose email `b@x.com` is
absent from the registry, yet the call fails on the earlier empty-email row
with `Every row must have an email.` — a `ValidationError` that does not
name the offending email, contradicting the claim's "naming that offending
email". -/
theorem claim_C8_counterexample :
    lookupEmployee csvS.employees "b@x.com" = none ∧
    handleUploadCsv csvS [{ email := some "" }, { email := some "b@x.com" }]
      = .error ⟨.invalidParams, "Every row must have an email."⟩ ∧
    "Every row must have an email." ≠
      "Email b@x.com does not match any generated wallet. Please generate wallets first." := by
  refine ⟨by decide, by decide, by decide⟩

theorem processCsvRows_first_fail (emps : List Employee) :
    ∀ (pre : List CsvRow) (post : List CsvRow) (r : CsvRow),
      (∀ p ∈ pre, ∃ v, processCsvRow emps p = .ok v) →
      strFalsy r.email = false →
      lookupEmployee emps (r.email.getD "") = none →
      processCsvRows emps (pre ++ r :: post) = .error ⟨.invalidParams,
        "Email " ++ r.email.getD "" ++
          " does not match any generated wallet. Please generate wallets first."⟩ := by
  intro pre
  induction pre with
  | nil =>
    intro post r _ hfal habs
    simp only [List.nil_append, processCsvRows]
    have hr : processCsvRow emps r = .error ⟨.invalidParams,
        "Email " ++ r.email.getD "" ++
          " does not match any generated wallet. Please generate wallets first."⟩ := by
      unfold processCsvRow
      rw [if_neg (by simp [hfal]), habs]
    rw [hr]
  | cons p ps ih =>
    intro post r hpre hfal habs
    simp only [List.cons_append, processCsvRows]
    obtain ⟨v, hv⟩ := hpre p (List.mem_cons_self p ps)
    rw [hv]
    simp only [List.append_eq]
    rw [ih post r (fun q hq => hpre q (List.mem_cons_of_mem p hq)) hfal habs]

/-- C8 amended: whenever the CSV contains a row whose email is absent from
the registry, `upload_csv` fails with a `ValidationError`
(`ErrCode.invalidParams`) and the registry is left unchanged, no record
created; the error names the offending email exactly when that row is the
first offending one — every earlier row passes the per-row checks.  (An
earlier offending row makes the call fail with that row's `ValidationError`
instead, which need not name the absent email.) -/
theorem claim_C8_amended (s : ServerState) (pre post : List CsvRow) (r : CsvRow)
    (habs : lookupEmployee s.employees (r.email.getD "") = none) :
    (∃ e : McpError, handleUploadCsv s (pre ++ r :: post) = .error e ∧
       e.code = .invalidParams ∧
       stepState s (.uploadCsv (pre ++ r :: post)) = s) ∧
    ((∀ p ∈ pre, ∃ v, processCsvRow s.employees p = .ok v) →
      strFalsy r.email = false →
      handleUploadCsv s (pre ++ r :: post) = .error ⟨.invalidParams,
        "Email " ++ r.email.getD "" ++
          " does not match any generated wallet. Please generate wallets first."⟩) := by
  constructor
  · cases hres : handleUploadCsv s (pre ++ r :: post) with
    | ok s' =>
      exfalso
      obtain ⟨l, hrows, _⟩ := handleUploadCsv_ok_rows hres
      obtain ⟨v, hv⟩ := processCsvRows_ok_each s.employees _ l hrows r
        (List.mem_append.mpr (Or.inr (List.mem_cons_self r post)))
      obtain ⟨ex, hlook, _⟩ := processCsvRow_ok hv
      rw [habs] at hlook
      exact Option.noConfusion hlook
    | error e =>
      exact ⟨e, rfl, handleUploadCsv_error_code hres, by simp [stepState, step, hres]⟩
  · intro hpre hfal
    have hmain := processCsvRows_first_fail s.employees pre post r hpre hfal habs
    cases pre with
    | nil =>
      have hsome : r.email.isNone = false := by
        cases he : r.email with
        | none => simp [strFalsy, he] at hfal
        | some x => rfl
      simp only [List.nil_append] at hmain ⊢
      simp only [handleUploadCsv]
      rw [if_neg (by simp [hsome])]
      rw [hmain]
    | cons p ps =>
      obtain ⟨v, hv⟩ := hpre p (List.mem_cons_self p ps)
      have hpfal : strFalsy p.email = false := processCsvRow_ok_email hv
      have hpsome : p.email.isNone = false := by
        cases he : p.email with
        | none => simp [strFalsy, he] at hpfal
        | some x => rfl
      simp only [List.cons_append] at hmain ⊢
      simp only [handleUploadCsv]
      rw [if_neg (by simp [hpsome])]
      rw [hmain]

theorem claim_C8_amended_witness :
    lookupEmployee csvS.employees "b@x.com" = none ∧
    handleUploadCsv csvS [{ email := some "b@x.com" }] = .error ⟨.invalidParams,
      "Email b@x.com does not match any generated wallet. Please generate wallets first."⟩ :=
  ⟨by decide,
   (claim_C8_amended csvS [] [] { email := some "b@x.com" } (by decide)).2
     (fun p hp => absurd hp (List.not_mem_nil p)) (by decide)⟩

/-! ## C2: batch submission bookkeeping -/

theorem runBatchesFrom_all_ok {β : Type} (submit : Nat → Except String String) :
    ∀ (bs : List β) (i : Nat),
      (∀ j, j < bs.length → ∃ tx, submit (i + j) = .ok tx) →
      (runBatchesFrom submit i bs).failure = none ∧
      (runBatchesFrom submit i bs).attempted = bs.length := by
  intro bs
  induction bs with
  | nil => intro i _; exact ⟨rfl, rfl⟩
  | cons b rest ih =>
    intro i h
    obtain ⟨tx, htx⟩ := h 0 (by simp)
    rw [Nat.add_zero] at htx
    simp only [runBatchesFrom]
    rw [htx]
    have ih' := ih (i + 1) (fun j hj => by
      obtain ⟨tx', htx'⟩ := h (j + 1) (by simpa using Nat.succ_lt_succ hj)
      refine ⟨tx', ?_⟩
      rw [← htx']
      congr 1
      omega)
    refine ⟨ih'.1, ?_⟩
    simp [ih'.2]

theorem runBatchesFrom_failure_none {β : Type} (submit : Nat → Except String String) :
    ∀ (bs : List β) (i : Nat),
      (runBatchesFrom submit i bs).failure = none →
      ∀ j, j < bs.length → ∃ tx, submit (i + j) = .ok tx := by
  intro bs
  induction bs with
  | nil => intro i _ j hj; simp at hj
  | cons b rest ih =>
    intro i h j hj
    simp only [runBatchesFrom] at h
    cases hsub : submit i with
    | error e => rw [hsub] at h; exact Option.noConfusion h
    | ok tx =>
      rw [hsub] at h
      cases j with
      | zero => exact ⟨tx, by rw [Nat.add_zero]; exact hsub⟩
      | succ j' =>
        obtain ⟨tx', htx'⟩ := ih (i + 1) h j' (by simpa using Nat.lt_of_succ_lt_succ hj)
        refine ⟨tx', ?_⟩
        rw [← htx']
        congr 1
        omega

theorem runBatchesFrom_first_fail {β : Type} (submit : Nat → Except String String) :
    ∀ (bs : List β) (i k : Nat) (e : String), k < bs.length →
      (∀ j, j < k → ∃ tx, submit (i + j) = .ok tx) →
      submit (i + k) = .error e →
      (runBatchesFrom submit i bs).failure = some e ∧
      (runBatchesFrom submit i bs).attempted = k + 1 := by
  intro bs
  induction bs with
  | nil => intro i k e hk; simp at hk
  | cons b rest ih =>
    intro i k e hk hprev herr
    simp only [runBatchesFrom]
    cases k with
    | zero =>
      rw [Nat.add_zero] at herr
      rw [herr]
      exact ⟨rfl, rfl⟩
    | succ k' =>
      obtain ⟨tx, htx⟩ := hprev 0 (Nat.succ_pos k')
      rw [Nat.add_zero] at htx
      rw [htx]
      have hrec := ih (i + 1) k' e (Nat.lt_of_succ_lt_succ hk)
        (fun j hj => by
          obtain ⟨tx', htx'⟩ := hprev (j + 1) (Nat.succ_lt_succ hj)
          refine ⟨tx', ?_⟩
          rw [← htx']
          congr 1
          omega)
        (by rw [← herr]; congr 1; omega)
      refine ⟨hrec.1, ?_⟩
      simp [hrec.2]

/-- C2: with all `start_airdrop` preconditions satisfied, a Helius key
configured and a funded sender account, the orchestrator sets
`airdropStatus` to `{started, completed, successful = employees.length,
failed = 0}` exactly when every batch submission succeeds; when the first
batch failure occurs at index k, the error propagates as an
`ExecutionError` (`ErrCode.internalError`) wrapping the batch's error,
exactly k + 1 submissions were attempted (no later batch is tried, no
skip-and-continue), and the state — `airdropStatus` included — is
unchanged. -/
theorem claim_C2_result_bookkeeping (s : ServerState)
    (submit : Nat → Except String String)
    (h1 : s.employees ≠ []) (h2 : s.connectedWallet ≠ none)
    (h3 : s.createdToken ≠ none)
    (h4 : ∀ e ∈ s.employees, e.tokenAmount ≠ none) :
    ((∀ i, i < (chunkBatches (airdropRecipients s)).length → ∃ tx, submit i = .ok tx) ↔
       step s (.startAirdrop true true submit)
         = .ok { s with airdropStatus := ⟨true, true, s.employees.length, 0⟩ }) ∧
    (∀ k err, k < (chunkBatches (airdropRecipients s)).length →
       (∀ j, j < k → ∃ tx, submit j = .ok tx) →
       submit k = .error err →
       step s (.startAirdrop true true submit)
         = .error ⟨.internalError, "Airdrop failed: Compressed airdrop failed: " ++ err⟩ ∧
       (sendCompressedAirdrop true submit (airdropRecipients s)).2 = k + 1 ∧
       stepState s (.startAirdrop true true submit) = s) := by
  have hlen : ¬s.employees.length = 0 := fun h => h1 (List.length_eq_zero.mp h)
  have hw : s.connectedWallet.isNone = false := by
    cases hcw : s.connectedWallet with
    | none => exact absurd hcw h2
    | some w => rfl
  have ht : s.createdToken.isNone = false := by
    cases hct : s.createdToken with
    | none => exact absurd hct h3
    | some t => rfl
  have hany : (s.employees.any fun e => e.tokenAmount.isNone) = false := by
    simp only [List.any_eq_false]
    intro e he
    have := h4 e he
    cases hto : e.tokenAmount with
    | none => exact absurd hto this
    | some q => simp
  have hstep_eq : step s (.startAirdrop true true submit)
      = match (sendCompressedAirdrop true submit (airdropRecipients s)).1 with
        | .ok _ => .ok { s with airdropStatus := ⟨true, true, s.employees.length, 0⟩ }
        | .error e => .error ⟨.internalError, "Airdrop failed: " ++ e⟩ := by
    simp [step, handleStartAirdrop, hlen, hw, ht, hany]
  have hsend : sendCompressedAirdrop true submit (airdropRecipients s)
      = (match (runBatchesFrom submit 0 (chunkBatches (airdropRecipients s))).failure with
         | none => (.ok (runBatchesFrom submit 0 (chunkBatches (airdropRecipients s))).txIds,
                    (runBatchesFrom submit 0 (chunkBatches (airdropRecipients s))).attempted)
         | some e => (.error ("Compressed airdrop failed: " ++ e),
                      (runBatchesFrom submit 0 (chunkBatches (airdropRecipients s))).attempted)) := by
    simp [sendCompressedAirdrop]
  constructor
  · constructor
    · intro hall
      have hrun := runBatchesFrom_all_ok submit (chunkBatches (airdropRecipients s)) 0
        (fun j hj => by
          obtain ⟨tx, htx⟩ := hall j hj
          exact ⟨tx, by rwa [Nat.zero_add]⟩)
      rw [hstep_eq, hsend, hrun.1]
    · intro hok
      rw [hstep_eq, hsend] at hok
      cases hfail : (runBatchesFrom submit 0 (chunkBatches (airdropRecipients s))).failure with
      | some e => rw [hfail] at hok; exact Except.noConfusion hok
      | none =>
        intro i hi
        obtain ⟨tx, htx⟩ := runBatchesFrom_failure_none submit
          (chunkBatches (airdropRecipients s)) 0 hfail i hi
        exact ⟨tx, by rwa [Nat.zero_add] at htx⟩
  · intro k err hk hprev herr
    have hrun := runBatchesFrom_first_fail submit (chunkBatches (airdropRecipients s)) 0 k err hk
      (fun j hj => by
        obtain ⟨tx, htx⟩ := hprev j hj
        exact ⟨tx, by rwa [Nat.zero_add]⟩)
      (by rwa [Nat.zero_add])
    have herrstep : step s (.startAirdrop true true submit)
        = .error ⟨.internalError, "Airdrop failed: Compressed airdrop failed: " ++ err⟩ := by
      rw [hstep_eq, hsend, hrun.1]
      rfl
    refine ⟨herrstep, ?_, ?_⟩
    · rw [hsend, hrun.1]
      exact hrun.2
    · simp [stepState, herrstep]

theorem claim_C2_witness :
    step readyS (.startAirdrop true true fun _ => .ok "sig")
      = .ok { readyS with airdropStatus := ⟨true, true, readyS.employees.length, 0⟩ } :=
  (claim_C2_result_bookkeeping readyS (fun _ => .ok "sig")
      (by decide) (by decide) (by decide) (by decide)).1.mp
    (fun i _ => ⟨"sig", rfl⟩)

end HRAirdrop
